import Mathlib

/-
  Verification of the scan aggregation & verification engine of
  `barcode-scanning-modal.component.ts` (the second, timestamped component
  variant, which carries the freshness/overlay logic; the first variant is a
  near-duplicate without timestamps).

  The component is an NgRx ComponentStore whose single state field
  `scanResults : Record<string, BarcodeScanResults>` maps a barcode's
  `displayValue` to an aggregate record.  We embed:
    - the state as an insertion-ordered association list (JS object key order
      for the non-integer-like string keys used as barcode values), plus a
      fresh-allocation counter `nextId` modelling JS object identity, which
      the `newBarcode$` pipeline observes through `distinctUntilChanged`
      (reference equality of the selected record);
    - the two updaters `updateScanResults` / `updateBarcodeSearchStatus`;
    - the selectors `barcodesFilteredArray$` / `newBarcode$` as pure functions
      of state snapshots, and the emission stream of `newBarcode$` over a
      sequence of snapshots;
    - the `searchNewBarcodes` effect outcome (`isMatch`) and completion
      handler, and the `drawBoxes` freshness filter.

  JS `undefined` field values (an absent `count`, geometry or timestamp) are
  embedded as `Option.none`; a `NaN` count (which in JS arises from
  incrementing an absent count) is conflated with `none`, which is
  observationally equal for every use of `count` in the component
  (`>= 3`, `=== 3`, subtraction inside the post-filter sort).
-/

namespace BarcodeScanning

/-- `BarcodeSearchStatus` enum of the component. -/
inductive BarcodeSearchStatus where
  | scanned
  | rejected
  | matched
deriving DecidableEq, Repr

/-- The fields of an incoming `Barcode` detection event that the component
reads: `displayValue` (the aggregation key) and the optional
`cornerPoints` geometry. -/
structure Barcode where
  displayValue : String
  cornerPoints : Option (List (Int × Int))
deriving DecidableEq, Repr

/-- `BarcodeScanResults`: one aggregate record of the store.  `id` models JS
object identity (each object literal evaluation allocates a fresh object);
every other field is an optional JS property. -/
structure ScanRecord where
  id : Nat
  displayValue : Option String
  cornerPoints : Option (List (Int × Int))
  count : Option Nat
  searchStatus : Option BarcodeSearchStatus
  timestamp : Option Nat
deriving DecidableEq, Repr

/-- `const POSITIVE_SCAN_THRESHOLD = 3`. -/
def POSITIVE_SCAN_THRESHOLD : Nat := 3

/-- `const KEEP_SCANNING_AFTER_MATCH = false`. -/
def KEEP_SCANNING_AFTER_MATCH : Bool := false

/-- The hard-coded staleness window (ms) of `drawBoxes`. -/
def STALE_WINDOW_MS : Int := 1000

/-- `BarcodeScannerState`: the ComponentStore state, an insertion-ordered
string-keyed object, plus the allocation counter for object identities. -/
structure BarcodeScannerState where
  scanResults : List (String × ScanRecord)
  nextId : Nat
deriving DecidableEq, Repr

/-- `super({ scanResults: {} })`. -/
def initialState : BarcodeScannerState := { scanResults := [], nextId := 0 }

/-- Key lookup in the insertion-ordered object. -/
def lookupSR : List (String × ScanRecord) → String → Option ScanRecord
  | [], _ => none
  | (k, r) :: rest, v => if k = v then some r else lookupSR rest v

/-- `{...obj, [v]: r}`: replace in place when the key exists (JS preserves
the key's position), append otherwise. -/
def setSR : List (String × ScanRecord) → String → ScanRecord → List (String × ScanRecord)
  | [], v, r => [(v, r)]
  | (k, r0) :: rest, v, r =>
    if k = v then (k, r) :: rest else (k, r0) :: setSR rest v r

/-- Spreading `...barcode` over an existing record: the event's
`cornerPoints` property overwrites the stored one when present. -/
def spreadGeometry :
    Option (List (Int × Int)) → Option (List (Int × Int)) → Option (List (Int × Int))
  | some g, _ => some g
  | none, old => old

/-- The `updateScanResults` updater (second variant): if the value is present,
`{...existing, ...barcode, count: existing.count + 1, timestamp: new Date()}`;
otherwise `{...barcode, count: 1, searchStatus: scanned, timestamp: new Date()}`.
`now` is the clock reading of `new Date()`. -/
def updateScanResults (state : BarcodeScannerState) (barcode : Barcode) (now : Nat) :
    BarcodeScannerState :=
  match lookupSR state.scanResults barcode.displayValue with
  | some existing =>
    { scanResults :=
        setSR state.scanResults barcode.displayValue
          { id := state.nextId
            displayValue := some barcode.displayValue
            cornerPoints := spreadGeometry barcode.cornerPoints existing.cornerPoints
            count := Option.map (· + 1) existing.count
            searchStatus := existing.searchStatus
            timestamp := some now }
      nextId := state.nextId + 1 }
  | none =>
    { scanResults :=
        setSR state.scanResults barcode.displayValue
          { id := state.nextId
            displayValue := some barcode.displayValue
            cornerPoints := barcode.cornerPoints
            count := some 1
            searchStatus := some BarcodeSearchStatus.scanned
            timestamp := some now }
      nextId := state.nextId + 1 }

/-- The `updateBarcodeSearchStatus` updater:
`{...state.scanResults[barcodeValue], searchStatus}`.  When the value is
absent, spreading `undefined` yields an object holding only `searchStatus`. -/
def updateBarcodeSearchStatus (state : BarcodeScannerState) (barcodeValue : String)
    (searchStatus : BarcodeSearchStatus) : BarcodeScannerState :=
  match lookupSR state.scanResults barcodeValue with
  | some existing =>
    { scanResults :=
        setSR state.scanResults barcodeValue
          { existing with id := state.nextId, searchStatus := some searchStatus }
      nextId := state.nextId + 1 }
  | none =>
    { scanResults :=
        setSR state.scanResults barcodeValue
          { id := state.nextId
            displayValue := none
            cornerPoints := none
            count := none
            searchStatus := some searchStatus
            timestamp := none }
      nextId := state.nextId + 1 }

/-- `item.count` read as a JS number for comparisons: an absent (or NaN)
count compares false against the threshold, like `0` does. -/
def countD (r : ScanRecord) : Nat := r.count.getD 0

/-- Stable insertion (descending by `count`) matching the stable JS
`sort((a, b) => b.count - a.count)`: an element is placed before the first
element of smaller or equal count that originally came later. -/
def insertByCountDesc (x : ScanRecord) : List ScanRecord → List ScanRecord
  | [] => [x]
  | y :: ys => if countD x < countD y then y :: insertByCountDesc x ys else x :: y :: ys

/-- Stable sort by `count` descending. -/
def sortByCountDesc : List ScanRecord → List ScanRecord
  | [] => []
  | x :: xs => insertByCountDesc x (sortByCountDesc xs)

/-- `Object.values(state.scanResults)` in key insertion order. -/
def storeValues (s : BarcodeScannerState) : List ScanRecord :=
  s.scanResults.map Prod.snd

/-- The `barcodesFilteredArray$` selector:
`Object.values(barcodes).filter(count >= THRESHOLD).sort(byCountDesc)`. -/
def barcodesFilteredArray (s : BarcodeScannerState) : List ScanRecord :=
  sortByCountDesc
    ((storeValues s).filter (fun r => decide (POSITIVE_SCAN_THRESHOLD ≤ countD r)))

/-- JS `===` on the value selected by `newBarcode$`
(`barcodes.slice(-1)[0]`, possibly `undefined`): reference equality on
records, `undefined === undefined`. -/
def sameRef : Option ScanRecord → Option ScanRecord → Bool
  | none, none => true
  | some a, some b => a.id == b.id
  | _, _ => false

/-- The two `filter` stages of `newBarcode$`: drop `undefined`, keep only a
record whose `count === POSITIVE_SCAN_THRESHOLD`. -/
def emitFilter : Option ScanRecord → List ScanRecord
  | some r => if r.count = some POSITIVE_SCAN_THRESHOLD then [r] else []
  | none => []

/-- One step of the `newBarcode$` pipeline on a state snapshot: select the
tail of the ranked array, suppress it when reference-equal to the previously
selected value (`distinctUntilChanged` inside `select`), then apply the two
filters.  Returns the emitted records and the new `distinctUntilChanged`
memory (`none` = nothing emitted by the select yet). -/
def emitStep (prev : Option (Option ScanRecord)) (s : BarcodeScannerState) :
    List ScanRecord × Option (Option ScanRecord) :=
  match prev with
  | some p =>
    if sameRef p ((barcodesFilteredArray s).getLast?) then ([], some p)
    else (emitFilter ((barcodesFilteredArray s).getLast?),
          some ((barcodesFilteredArray s).getLast?))
  | none =>
    (emitFilter ((barcodesFilteredArray s).getLast?),
     some ((barcodesFilteredArray s).getLast?))

/-- The emissions of `newBarcode$` over a sequence of observed state
snapshots. -/
def emissionsAux :
    Option (Option ScanRecord) → List BarcodeScannerState → List ScanRecord
  | _, [] => []
  | prev, s :: rest =>
    (emitStep prev s).1 ++ emissionsAux (emitStep prev s).2 rest

/-- JS `s.startsWith(pre)`: character-level prefix test. -/
def strStarts (pre s : String) : Bool := pre.data.isPrefixOf s.data

/-- `isMatch`: `barcodeValue.startsWith('S') || barcodeValue.startsWith('CAT')`. -/
def isMatch (barcodeValue : String) : Bool :=
  strStarts "S" barcodeValue || strStarts "CAT" barcodeValue

/-- The status written back by the `searchNewBarcodes` effect for a value:
`matched ? matched : rejected` with `matched = isMatch(value)`. -/
def verdict (v : String) : BarcodeSearchStatus :=
  if isMatch v then BarcodeSearchStatus.matched else BarcodeSearchStatus.rejected

/-- The `matched` flag computed by `searchNewBarcodes` for a dispatched
barcode; the randomized latency delays delivery but the outcome is computed
from the value alone. -/
def verificationOutcome (b : Barcode) : Bool := isMatch b.displayValue

/-- The state-relevant events of a scanning session: a `barcodeScanned`
detection (processed by `updateScanResults` at clock reading `now`) and the
completion of a dispatched verification for a value (processed by
`updateBarcodeSearchStatus` with that value's deterministic verdict). -/
inductive ScanEvent where
  | detect (barcode : Barcode) (now : Nat)
  | complete (value : String)
deriving DecidableEq, Repr

/-- Apply one event to the store. -/
def applyEvent (s : BarcodeScannerState) : ScanEvent → BarcodeScannerState
  | ScanEvent.detect b now => updateScanResults s b now
  | ScanEvent.complete v => updateBarcodeSearchStatus s v (verdict v)

/-- Apply a batch of events. -/
def applyEvents (s : BarcodeScannerState) (evs : List ScanEvent) : BarcodeScannerState :=
  evs.foldl applyEvent s

/-- The snapshots observed after each synchronous batch of updates (the
debounced selectors coalesce updates of one synchronous frame into one
observed snapshot; events processed in separate tasks form singleton
batches). -/
def snapshotsAux : BarcodeScannerState → List (List ScanEvent) → List BarcodeScannerState
  | _, [] => []
  | s, b :: bs => applyEvents s b :: snapshotsAux (applyEvents s b) bs

/-- The full observed snapshot stream of a session: the initial state
followed by the post-batch snapshots. -/
def stateTrace (batches : List (List ScanEvent)) : List BarcodeScannerState :=
  initialState :: snapshotsAux initialState batches

/-- All records emitted by `newBarcode$` over a session; each emission is
fed to the `searchNewBarcodes` effect, i.e. dispatches one verification. -/
def newBarcodeEmissions (batches : List (List ScanEvent)) : List ScanRecord :=
  emissionsAux none (stateTrace batches)

/-- The values whose verification is dispatched over a session. -/
def dispatchValues (batches : List (List ScanEvent)) : List String :=
  (newBarcodeEmissions batches).filterMap ScanRecord.displayValue

/-- A trace whose events each arrive in their own task (no coalescing). -/
def eventTrace (evs : List ScanEvent) : List (List ScanEvent) :=
  evs.map (fun e => [e])

/-- The values of the completion events of a trace. -/
def completesOf (evs : List ScanEvent) : List String :=
  evs.filterMap (fun e =>
    match e with
    | ScanEvent.complete v => some v
    | _ => none)

/-- Occurrences of a value in a list. -/
def occCount (v : String) (l : List String) : Nat := l.countP (fun w => w == v)

/-- Validity of a single-task event trace: every completion event answers a
verification that was actually dispatched (by an emission of `newBarcode$`
over the preceding prefix) and not yet answered. -/
def validEventTraceAux : List ScanEvent → List ScanEvent → Bool
  | _, [] => true
  | pre, e :: rest =>
    (match e with
     | ScanEvent.complete v =>
       decide (occCount v (completesOf pre) < occCount v (dispatchValues (eventTrace pre)))
     | _ => true)
    && validEventTraceAux (pre ++ [e]) rest

/-- A valid session trace: see `validEventTraceAux`. -/
def validEventTrace (evs : List ScanEvent) : Bool := validEventTraceAux [] evs

/-- The states reachable by a session: detections are always possible;
verification completions are issued only for values tracked by the store
(a dispatched value is present and records are never deleted). -/
inductive Reachable : BarcodeScannerState → Prop
  | init : Reachable initialState
  | detect (s : BarcodeScannerState) (b : Barcode) (now : Nat) :
      Reachable s → Reachable (updateScanResults s b now)
  | complete (s : BarcodeScannerState) (v : String) (r : ScanRecord) :
      Reachable s → lookupSR s.scanResults v = some r →
      Reachable (updateBarcodeSearchStatus s v (verdict v))

/-- `isStale` inside `drawBoxes`:
`new Date().getTime() - timestamp.getTime() > 1000`; when the record has no
timestamp, the JS comparison against NaN is false. -/
def isStale (r : ScanRecord) (now : Nat) : Bool :=
  match r.timestamp with
  | some t => decide (STALE_WINDOW_MS < (now : Int) - (t : Int))
  | none => false

/-- The records whose geometry `drawBoxes` strokes on the canvas: it iterates
over `barcodesFilteredArray$` (the threshold-filtered ranked array) and draws
`if (cornerPoints && !isStale)`. -/
def drawnRecords (s : BarcodeScannerState) (now : Nat) : List ScanRecord :=
  (barcodesFilteredArray s).filter (fun r => r.cornerPoints.isSome && !(isStale r now))

/-- The `drawBoxes` effect as a state transformer: it renders the drawn
records and leaves the store untouched. -/
def drawBoxesStep (s : BarcodeScannerState) (now : Nat) :
    List ScanRecord × BarcodeScannerState :=
  (drawnRecords s now, s)

/-- The completion branch of the `searchNewBarcodes` effect: returns whether
a session stop is signalled (`matched && !KEEP_SCANNING_AFTER_MATCH`) and the
store after `updateBarcodeSearchStatus`. -/
def handleVerificationResult (s : BarcodeScannerState) (v : String) (matched : Bool) :
    Bool × BarcodeScannerState :=
  (matched && !KEEP_SCANNING_AFTER_MATCH,
   updateBarcodeSearchStatus s v
     (if matched then BarcodeSearchStatus.matched else BarcodeSearchStatus.rejected))

/-- The `count` field of the record tracked for a value. -/
def countOf (s : BarcodeScannerState) (v : String) : Option Nat :=
  (lookupSR s.scanResults v).bind ScanRecord.count

/-- The `searchStatus` field of the record tracked for a value. -/
def statusOf (s : BarcodeScannerState) (v : String) : Option BarcodeSearchStatus :=
  (lookupSR s.scanResults v).bind ScanRecord.searchStatus

/-- Repeated detections, each with its clock reading. -/
def applyDetections (s : BarcodeScannerState) : List (Barcode × Nat) → BarcodeScannerState
  | [] => s
  | (b, t) :: rest => applyDetections (updateScanResults s b t) rest

/-- Whether an event is a detection of the given value. -/
def isDetectOf (v : String) : ScanEvent → Bool
  | ScanEvent.detect b _ => b.displayValue == v
  | ScanEvent.complete _ => false

/-! ### Association-list lemmas -/

theorem lookupSR_setSR_self (m : List (String × ScanRecord)) (v : String) (r : ScanRecord) :
    lookupSR (setSR m v r) v = some r := by
  induction m with
  | nil => simp [setSR, lookupSR]
  | cons hd tl ih =>
    obtain ⟨k, r0⟩ := hd
    by_cases hk : k = v
    · subst hk; simp [setSR, lookupSR]
    · simp [setSR, lookupSR, hk, ih]

theorem lookupSR_setSR_ne (m : List (String × ScanRecord)) (v : String) (r : ScanRecord)
    (w : String) (hw : w ≠ v) : lookupSR (setSR m v r) w = lookupSR m w := by
  induction m with
  | nil => simp [setSR, lookupSR, Ne.symm hw]
  | cons hd tl ih =>
    obtain ⟨k, r0⟩ := hd
    by_cases hk : k = v
    · subst hk
      have hkw : k ≠ w := fun h => hw h.symm
      simp [setSR, lookupSR, hkw]
    · by_cases hkw : k = w
      · subst hkw; simp [setSR, lookupSR, hk]
      · simp [setSR, lookupSR, hk, hkw, ih]

theorem setSR_absent (m : List (String × ScanRecord)) (v : String) (r : ScanRecord)
    (h : lookupSR m v = none) : setSR m v r = m ++ [(v, r)] := by
  induction m with
  | nil => simp [setSR]
  | cons hd tl ih =>
    obtain ⟨k, r0⟩ := hd
    by_cases hk : k = v
    · subst hk; simp [lookupSR] at h
    · simp [lookupSR, hk] at h
      simp [setSR, hk, ih h]

/-! ### Updater lemmas -/

theorem updateScanResults_lookup_present (s : BarcodeScannerState) (b : Barcode) (now : Nat)
    (r : ScanRecord) (hr : lookupSR s.scanResults b.displayValue = some r) :
    lookupSR (updateScanResults s b now).scanResults b.displayValue =
      some { id := s.nextId
             displayValue := some b.displayValue
             cornerPoints := spreadGeometry b.cornerPoints r.cornerPoints
             count := Option.map (· + 1) r.count
             searchStatus := r.searchStatus
             timestamp := some now } := by
  unfold updateScanResults
  rw [hr]
  exact lookupSR_setSR_self _ _ _

theorem updateScanResults_lookup_absent (s : BarcodeScannerState) (b : Barcode) (now : Nat)
    (hr : lookupSR s.scanResults b.displayValue = none) :
    lookupSR (updateScanResults s b now).scanResults b.displayValue =
      some { id := s.nextId
             displayValue := some b.displayValue
             cornerPoints := b.cornerPoints
             count := some 1
             searchStatus := some BarcodeSearchStatus.scanned
             timestamp := some now } := by
  unfold updateScanResults
  rw [hr]
  exact lookupSR_setSR_self _ _ _

theorem updateScanResults_lookup_ne (s : BarcodeScannerState) (b : Barcode) (now : Nat)
    (w : String) (hw : w ≠ b.displayValue) :
    lookupSR (updateScanResults s b now).scanResults w = lookupSR s.scanResults w := by
  unfold updateScanResults
  cases lookupSR s.scanResults b.displayValue <;>
    exact lookupSR_setSR_ne _ _ _ _ hw

theorem updateBarcodeSearchStatus_lookup_present (s : BarcodeScannerState) (v : String)
    (st : BarcodeSearchStatus) (r : ScanRecord) (hr : lookupSR s.scanResults v = some r) :
    lookupSR (updateBarcodeSearchStatus s v st).scanResults v =
      some { r with id := s.nextId, searchStatus := some st } := by
  unfold updateBarcodeSearchStatus
  rw [hr]
  exact lookupSR_setSR_self _ _ _

theorem updateBarcodeSearchStatus_lookup_absent (s : BarcodeScannerState) (v : String)
    (st : BarcodeSearchStatus) (hr : lookupSR s.scanResults v = none) :
    lookupSR (updateBarcodeSearchStatus s v st).scanResults v =
      some { id := s.nextId
             displayValue := none
             cornerPoints := none
             count := none
             searchStatus := some st
             timestamp := none } := by
  unfold updateBarcodeSearchStatus
  rw [hr]
  exact lookupSR_setSR_self _ _ _

theorem updateBarcodeSearchStatus_lookup_ne (s : BarcodeScannerState) (v : String)
    (st : BarcodeSearchStatus) (w : String) (hw : w ≠ v) :
    lookupSR (updateBarcodeSearchStatus s v st).scanResults w = lookupSR s.scanResults w := by
  unfold updateBarcodeSearchStatus
  cases lookupSR s.scanResults v <;>
    exact lookupSR_setSR_ne _ _ _ _ hw

theorem statusOf_updateBarcodeSearchStatus_self (s : BarcodeScannerState) (v : String)
    (st : BarcodeSearchStatus) :
    statusOf (updateBarcodeSearchStatus s v st) v = some st := by
  unfold statusOf
  cases hr : lookupSR s.scanResults v with
  | some r => rw [updateBarcodeSearchStatus_lookup_present s v st r hr]; rfl
  | none => rw [updateBarcodeSearchStatus_lookup_absent s v st hr]; rfl

/-! ### Sorting lemmas -/

theorem mem_insertByCountDesc (a x : ScanRecord) (l : List ScanRecord) :
    a ∈ insertByCountDesc x l ↔ a = x ∨ a ∈ l := by
  induction l with
  | nil => simp [insertByCountDesc]
  | cons y ys ih =>
    by_cases h : countD x < countD y
    · simp only [insertByCountDesc, if_pos h, List.mem_cons, ih]
      tauto
    · simp only [insertByCountDesc, if_neg h, List.mem_cons]

theorem mem_sortByCountDesc (a : ScanRecord) (l : List ScanRecord) :
    a ∈ sortByCountDesc l ↔ a ∈ l := by
  induction l with
  | nil => simp [sortByCountDesc]
  | cons x xs ih => simp [sortByCountDesc, mem_insertByCountDesc, ih]

/-! ### Single-value session machinery (for claim C1) -/

/-- Invariant of a session that has only ever detected the value `v`,
`k ≥ 1` times: the store tracks exactly the one record `r`, whose count is
`k` and whose object identity is the most recently allocated one. -/
def SingleInv (v : String) (k : Nat) (s : BarcodeScannerState) (r : ScanRecord) : Prop :=
  s.scanResults = [(v, r)] ∧ r.count = some k ∧ r.displayValue = some v ∧
  r.id + 1 = s.nextId

theorem singleInv_step (v : String) (k : Nat) (s : BarcodeScannerState) (r : ScanRecord)
    (e : ScanEvent) (hInv : SingleInv v k s r) (he : isDetectOf v e = true) :
    ∃ r2, SingleInv v (k + 1) (applyEvent s e) r2 ∧ r2.id = s.nextId := by
  obtain ⟨hm, hc, hd, hi⟩ := hInv
  cases e with
  | complete w => simp [isDetectOf] at he
  | detect b t =>
    obtain rfl : b.displayValue = v := by simpa [isDetectOf] using he
    have hlk : lookupSR s.scanResults b.displayValue = some r := by
      rw [hm]; simp [lookupSR]
    refine ⟨{ id := s.nextId, displayValue := some b.displayValue,
              cornerPoints := spreadGeometry b.cornerPoints r.cornerPoints,
              count := Option.map (· + 1) r.count,
              searchStatus := r.searchStatus, timestamp := some t },
            ⟨?_, ?_, rfl, ?_⟩, rfl⟩
    · show (updateScanResults s b t).scanResults = _
      unfold updateScanResults
      rw [hlk]
      simp only
      rw [hm]
      simp [setSR]
    · simp [hc]
    · show s.nextId + 1 = (updateScanResults s b t).nextId
      unfold updateScanResults
      rw [hlk]

theorem singleInv_init (v : String) (e : ScanEvent) (he : isDetectOf v e = true) :
    ∃ r, SingleInv v 1 (applyEvent initialState e) r ∧ r.id = 0 := by
  cases e with
  | complete w => simp [isDetectOf] at he
  | detect b t =>
    obtain rfl : b.displayValue = v := by simpa [isDetectOf] using he
    exact ⟨{ id := 0, displayValue := some b.displayValue, cornerPoints := b.cornerPoints,
             count := some 1, searchStatus := some BarcodeSearchStatus.scanned,
             timestamp := some t }, ⟨rfl, rfl, rfl, rfl⟩, rfl⟩

theorem barcodesFilteredArray_single (v : String) (r : ScanRecord)
    (s : BarcodeScannerState) (hm : s.scanResults = [(v, r)]) :
    barcodesFilteredArray s =
      if POSITIVE_SCAN_THRESHOLD ≤ countD r then [r] else [] := by
  unfold barcodesFilteredArray storeValues
  rw [hm]
  by_cases h : POSITIVE_SCAN_THRESHOLD ≤ countD r
  · simp [h, sortByCountDesc, insertByCountDesc]
  · simp [h, sortByCountDesc]

theorem emitStep_skip (p : Option ScanRecord) (s : BarcodeScannerState)
    (h : sameRef p ((barcodesFilteredArray s).getLast?) = true) :
    emitStep (some p) s = ([], some p) := by
  simp [emitStep, h]

theorem emitStep_fresh (p : Option ScanRecord) (s : BarcodeScannerState)
    (h : sameRef p ((barcodesFilteredArray s).getLast?) = false) :
    emitStep (some p) s =
      (emitFilter ((barcodesFilteredArray s).getLast?),
       some ((barcodesFilteredArray s).getLast?)) := by
  simp [emitStep, h]

/-- Once the single tracked record has reached the threshold, no later
detection of the same value produces a further `newBarcode$` emission: the
tail of the ranked array is a freshly allocated record on every detection,
but its count exceeds the threshold, so the `count === 3` filter drops it. -/
theorem emissions_after_crossing (evs : List ScanEvent) (v : String) :
    ∀ (k : Nat) (s : BarcodeScannerState) (r : ScanRecord),
    (∀ e ∈ evs, isDetectOf v e = true) → SingleInv v k s r →
    POSITIVE_SCAN_THRESHOLD ≤ k →
    emissionsAux (some (some r)) (snapshotsAux s (eventTrace evs)) = [] := by
  induction evs with
  | nil => intro k s r _ _ _; rfl
  | cons e rest ih =>
    intro k s r hall hInv hk
    have he := hall e (List.mem_cons_self _ _)
    obtain ⟨r2, hInv2, hid⟩ := singleInv_step v k s r e hInv he
    have hidr : r.id + 1 = s.nextId := hInv.2.2.2
    have hc2 : r2.count = some (k + 1) := hInv2.2.1
    have hcnt2 : countD r2 = k + 1 := by simp [countD, hc2]
    have hge : POSITIVE_SCAN_THRESHOLD ≤ countD r2 := by rw [hcnt2]; omega
    have hranked : barcodesFilteredArray (applyEvent s e) = [r2] := by
      rw [barcodesFilteredArray_single v r2 _ hInv2.1, if_pos hge]
    have hlast : (barcodesFilteredArray (applyEvent s e)).getLast? = some r2 := by
      rw [hranked]; rfl
    have hne : sameRef (some r) ((barcodesFilteredArray (applyEvent s e)).getLast?) =
        false := by
      rw [hlast]
      have hid2 : r.id ≠ r2.id := by omega
      simp [sameRef, hid2]
    have hnot3 : ¬ r2.count = some POSITIVE_SCAN_THRESHOLD := by
      rw [hc2]
      simp only [POSITIVE_SCAN_THRESHOLD] at hk ⊢
      simp only [Option.some.injEq]
      omega
    show emissionsAux (some (some r))
        (applyEvent s e :: snapshotsAux (applyEvent s e) (eventTrace rest)) = []
    rw [emissionsAux, emitStep_fresh _ _ hne, hlast]
    simp only [emitFilter, if_neg hnot3, List.nil_append]
    exact ih (k + 1) (applyEvent s e) r2
      (fun x hx => hall x (List.mem_cons_of_mem _ hx)) hInv2 (by omega)

/-- Below the threshold, the single-value session emits exactly once, at the
detection where the count first reaches the threshold. -/
theorem emissions_before_crossing (evs : List ScanEvent) (v : String) :
    ∀ (k : Nat) (s : BarcodeScannerState) (r : ScanRecord),
    (∀ e ∈ evs, isDetectOf v e = true) → SingleInv v k s r →
    k < POSITIVE_SCAN_THRESHOLD →
    (emissionsAux (some none) (snapshotsAux s (eventTrace evs))).filterMap
        ScanRecord.displayValue =
      if POSITIVE_SCAN_THRESHOLD ≤ k + evs.length then [v] else [] := by
  induction evs with
  | nil =>
    intro k s r _ _ hk
    rw [if_neg (by simpa using Nat.not_le.mpr hk)]
    rfl
  | cons e rest ih =>
    intro k s r hall hInv hk
    have he := hall e (List.mem_cons_self _ _)
    have hrest : ∀ x ∈ rest, isDetectOf v x = true :=
      fun x hx => hall x (List.mem_cons_of_mem _ hx)
    obtain ⟨r2, hInv2, hid⟩ := singleInv_step v k s r e hInv he
    have hc2 : r2.count = some (k + 1) := hInv2.2.1
    have hcnt2 : countD r2 = k + 1 := by simp [countD, hc2]
    show (emissionsAux (some none)
        (applyEvent s e :: snapshotsAux (applyEvent s e) (eventTrace rest))).filterMap
        ScanRecord.displayValue = _
    by_cases hcross : POSITIVE_SCAN_THRESHOLD ≤ k + 1
    · have hge : POSITIVE_SCAN_THRESHOLD ≤ countD r2 := by rw [hcnt2]; omega
      have hranked : barcodesFilteredArray (applyEvent s e) = [r2] := by
        rw [barcodesFilteredArray_single v r2 _ hInv2.1, if_pos hge]
      have hlast : (barcodesFilteredArray (applyEvent s e)).getLast? = some r2 := by
        rw [hranked]; rfl
      have hne : sameRef none ((barcodesFilteredArray (applyEvent s e)).getLast?) =
          false := by rw [hlast]; rfl
      have h3 : r2.count = some POSITIVE_SCAN_THRESHOLD := by
        rw [hc2]
        simp only [POSITIVE_SCAN_THRESHOLD] at hk hcross ⊢
        congr 1
        omega
      rw [emissionsAux, emitStep_fresh _ _ hne, hlast]
      simp only [emitFilter, if_pos h3]
      rw [emissions_after_crossing rest v (k + 1) (applyEvent s e) r2 hrest hInv2 hcross]
      rw [if_pos (by simp only [List.length_cons]; omega)]
      simp [hInv2.2.2.1]
    · have hlt : ¬ POSITIVE_SCAN_THRESHOLD ≤ countD r2 := by rw [hcnt2]; omega
      have hranked : barcodesFilteredArray (applyEvent s e) = [] := by
        rw [barcodesFilteredArray_single v r2 _ hInv2.1, if_neg hlt]
      have hsk : sameRef none ((barcodesFilteredArray (applyEvent s e)).getLast?) =
          true := by rw [hranked]; rfl
      rw [emissionsAux, emitStep_skip _ _ hsk]
      simp only [List.nil_append]
      rw [ih (k + 1) (applyEvent s e) r2 hrest hInv2 (by omega)]
      simp only [List.length_cons]
      by_cases hfin : POSITIVE_SCAN_THRESHOLD ≤ k + 1 + rest.length
      · rw [if_pos hfin, if_pos (by omega)]
      · rw [if_neg hfin, if_neg (by omega)]

/-! ### Claim C1 -/

/-- The C1 counterexample trace: three detections of `"A"` followed by the
completion of the verification they dispatch. -/
def cxDoubleTrace : List ScanEvent :=
  [ScanEvent.detect { displayValue := "A", cornerPoints := none } 0,
   ScanEvent.detect { displayValue := "A", cornerPoints := none } 1,
   ScanEvent.detect { displayValue := "A", cornerPoints := none } 2,
   ScanEvent.complete "A"]

/-- Claim C1 counterexample: in the valid session trace that detects `"A"`
three times and then applies the completion of the dispatched verification,
`newBarcode$` emits `"A"` twice, so two verification calls are dispatched
for the same value in one session.  (`updateBarcodeSearchStatus` allocates a
fresh record object with unchanged `count = 3`; the ranked array's tail is
that new object, `distinctUntilChanged` passes it, and the
`count === POSITIVE_SCAN_THRESHOLD` filter admits it again.) -/
theorem newBarcode_double_dispatch_cx :
    validEventTrace cxDoubleTrace = true ∧
    occCount "A" (dispatchValues (eventTrace cxDoubleTrace)) = 2 := by
  exact ⟨by decide, by decide⟩

/-- Claim C1 as amended: the exactly-once guarantee holds for a session that
only ever detects a single value and in which no verification completion is
applied: `newBarcode$` then emits exactly once — at the detection where the
count first reaches the threshold — iff at least `POSITIVE_SCAN_THRESHOLD`
detections occur; in general (several values, or a verification completing
while the value still sits at the ranked tail with count 3) a value can be
re-emitted and re-dispatched. -/
theorem newBarcode_single_value_once (v : String) (evs : List ScanEvent)
    (hall : ∀ e ∈ evs, isDetectOf v e = true) :
    dispatchValues (eventTrace evs) =
      if POSITIVE_SCAN_THRESHOLD ≤ evs.length then [v] else [] := by
  unfold dispatchValues newBarcodeEmissions stateTrace
  have hstep0 : emitStep none initialState = ([], some none) := rfl
  rw [emissionsAux, hstep0]
  simp only [List.nil_append]
  cases evs with
  | nil => rfl
  | cons e rest =>
    have he := hall e (List.mem_cons_self _ _)
    have hrest : ∀ x ∈ rest, isDetectOf v x = true :=
      fun x hx => hall x (List.mem_cons_of_mem _ hx)
    obtain ⟨r1, hInv1, hid1⟩ := singleInv_init v e he
    have hc1 : r1.count = some 1 := hInv1.2.1
    have hlt : ¬ POSITIVE_SCAN_THRESHOLD ≤ countD r1 := by
      simp only [countD, hc1, Option.getD_some, POSITIVE_SCAN_THRESHOLD]
      omega
    have hranked : barcodesFilteredArray (applyEvent initialState e) = [] := by
      rw [barcodesFilteredArray_single v r1 _ hInv1.1, if_neg hlt]
    have hsk : sameRef none
        ((barcodesFilteredArray (applyEvent initialState e)).getLast?) = true := by
      rw [hranked]; rfl
    show (emissionsAux (some none)
        (applyEvent initialState e ::
          snapshotsAux (applyEvent initialState e) (eventTrace rest))).filterMap
        ScanRecord.displayValue = _
    rw [emissionsAux, emitStep_skip _ _ hsk]
    simp only [List.nil_append]
    rw [emissions_before_crossing rest v 1 (applyEvent initialState e) r1 hrest hInv1
      (by simp [POSITIVE_SCAN_THRESHOLD])]
    simp only [List.length_cons]
    by_cases hfin : POSITIVE_SCAN_THRESHOLD ≤ 1 + rest.length
    · rw [if_pos hfin, if_pos (by omega)]
    · rw [if_neg hfin, if_neg (by omega)]

/-- The single-value witness trace: three detections of `"A"`. -/
def wOnceEvs : List ScanEvent :=
  [ScanEvent.detect { displayValue := "A", cornerPoints := none } 0,
   ScanEvent.detect { displayValue := "A", cornerPoints := none } 1,
   ScanEvent.detect { displayValue := "A", cornerPoints := none } 2]

/-- Witness for C1 (amended): the session that detects only `"A"`, three
times, dispatches exactly one verification, for `"A"`. -/
theorem newBarcode_single_value_once_witness :
    dispatchValues (eventTrace wOnceEvs) = ["A"] := by
  rw [newBarcode_single_value_once "A" wOnceEvs (by decide)]
  decide

/-! ### Claim C3 -/

/-- First batch of the C3 counterexample: `"A"` and `"B"` reach count 2. -/
def cxBothBatch1 : List ScanEvent :=
  [ScanEvent.detect { displayValue := "A", cornerPoints := none } 0,
   ScanEvent.detect { displayValue := "A", cornerPoints := none } 1,
   ScanEvent.detect { displayValue := "B", cornerPoints := none } 2,
   ScanEvent.detect { displayValue := "B", cornerPoints := none } 3]

/-- Second batch of the C3 counterexample: one detection of each value in the
same synchronous frame, so both cross the threshold in one observed state
update. -/
def cxBothBatch2 : List ScanEvent :=
  [ScanEvent.detect { displayValue := "A", cornerPoints := none } 4,
   ScanEvent.detect { displayValue := "B", cornerPoints := none } 5]

/-- The batched C3 counterexample session. -/
def cxBothBatches : List (List ScanEvent) := [cxBothBatch1, cxBothBatch2]

/-- Claim C3 counterexample: `"A"` and `"B"` both move from count 2 to
count 3 in the same observed state update, yet `newBarcode$` (which selects
only `slice(-1)[0]`, the single tail of the ranked array) emits only `"B"`:
`"A"`'s crossing is dropped, not delivered in ranked order. -/
theorem newBarcode_same_update_cx :
    countOf (applyEvents initialState cxBothBatch1) "A" = some 2 ∧
    countOf (applyEvents initialState cxBothBatch1) "B" = some 2 ∧
    countOf (applyEvents (applyEvents initialState cxBothBatch1) cxBothBatch2) "A" =
      some 3 ∧
    countOf (applyEvents (applyEvents initialState cxBothBatch1) cxBothBatch2) "B" =
      some 3 ∧
    dispatchValues cxBothBatches = ["B"] := by
  refine ⟨by decide, by decide, by decide, by decide, by decide⟩

/-- Claim C3 as amended: in any single observed state update, `newBarcode$`
emits at most one record — the tail of the ranked (count-descending) array,
and only when its count is exactly the threshold; when two distinct values
cross the threshold in the same state update, only the value at the ranked
tail is emitted and the other crossing is dropped. -/
theorem newBarcode_at_most_tail (prev : Option (Option ScanRecord))
    (s : BarcodeScannerState) :
    (emitStep prev s).1.length ≤ 1 ∧
    (∀ r, r ∈ (emitStep prev s).1 →
      (barcodesFilteredArray s).getLast? = some r ∧
      r.count = some POSITIVE_SCAN_THRESHOLD) := by
  have hfilter : ∀ o : Option ScanRecord, (emitFilter o).length ≤ 1 ∧
      (∀ r, r ∈ emitFilter o → o = some r ∧ r.count = some POSITIVE_SCAN_THRESHOLD) := by
    intro o
    cases o with
    | none => exact ⟨by simp [emitFilter], by simp [emitFilter]⟩
    | some r0 =>
      by_cases h : r0.count = some POSITIVE_SCAN_THRESHOLD
      · refine ⟨by simp [emitFilter, h], ?_⟩
        intro r hr
        simp only [emitFilter, if_pos h, List.mem_singleton] at hr
        subst hr
        exact ⟨rfl, h⟩
      · refine ⟨by simp [emitFilter, h], ?_⟩
        intro r hr
        simp [emitFilter, if_neg h] at hr
  cases prev with
  | none => exact hfilter ((barcodesFilteredArray s).getLast?)
  | some p =>
    by_cases h : sameRef p ((barcodesFilteredArray s).getLast?) = true
    · rw [emitStep_skip p s h]
      exact ⟨Nat.zero_le 1, by simp⟩
    · rw [emitStep_fresh p s (Bool.not_eq_true _ ▸ Bool.eq_false_iff.mpr ?_)]
      · exact hfilter ((barcodesFilteredArray s).getLast?)
      · exact fun hc => h hc

/-- The state after the three `"A"` detections of `wOnceEvs`. -/
def wThreeA : BarcodeScannerState := applyEvents initialState wOnceEvs

/-- The record tracked for `"A"` in `wThreeA`. -/
def wThreeARec : ScanRecord :=
  { id := 2, displayValue := some "A", cornerPoints := none, count := some 3,
    searchStatus := some BarcodeSearchStatus.scanned, timestamp := some 2 }

/-- Witness for C3 (amended): the record emitted at the snapshot `wThreeA`
is the ranked array's tail and has count exactly 3. -/
theorem newBarcode_at_most_tail_witness :
    (barcodesFilteredArray wThreeA).getLast? = some wThreeARec ∧
    wThreeARec.count = some POSITIVE_SCAN_THRESHOLD :=
  (newBarcode_at_most_tail none wThreeA).2 wThreeARec (by decide)

/-! ### Claim C2 -/

/-- Claim C2: for every sequence of N accepted detection events of the same
value, applying `updateScanResults` N times starting from any state leaves
every other value's record unchanged, and yields a count of N when the value
was absent, resp. of N plus its initial count when it was tracked with a
numeric count. -/
theorem count_after_repeated_detections (s : BarcodeScannerState) (v : String)
    (evs : List (Barcode × Nat)) (hall : ∀ e ∈ evs, (Prod.fst e).displayValue = v) :
    (∀ w, w ≠ v →
      lookupSR (applyDetections s evs).scanResults w = lookupSR s.scanResults w) ∧
    (lookupSR s.scanResults v = none → evs ≠ [] →
      countOf (applyDetections s evs) v = some evs.length) ∧
    (∀ c0, countOf s v = some c0 →
      countOf (applyDetections s evs) v = some (c0 + evs.length)) := by
  induction evs generalizing s with
  | nil =>
    refine ⟨fun w _ => rfl, fun _ h => absurd rfl h, fun c0 hc0 => ?_⟩
    simpa using hc0
  | cons e rest ih =>
    obtain ⟨b, t⟩ := e
    have hb : b.displayValue = v := hall (b, t) (List.mem_cons_self _ _)
    have hstep : applyDetections s ((b, t) :: rest) =
        applyDetections (updateScanResults s b t) rest := rfl
    have hrest : ∀ e ∈ rest, (Prod.fst e).displayValue = v :=
      fun e he => hall e (List.mem_cons_of_mem _ he)
    obtain ⟨ihiso, ihabs, ihpres⟩ := ih (updateScanResults s b t) hrest
    refine ⟨?_, ?_, ?_⟩
    · intro w hw
      rw [hstep, ihiso w hw, updateScanResults_lookup_ne s b t w (hb ▸ hw)]
    · intro habs _
      have h1 : countOf (updateScanResults s b t) v = some 1 := by
        unfold countOf
        rw [← hb] at habs ⊢
        rw [updateScanResults_lookup_absent s b t habs]
        rfl
      have := ihpres 1 h1
      rw [hstep, this]
      simp [Nat.add_comm]
    · intro c0 hc0
      obtain ⟨r, hr, hrc⟩ : ∃ r, lookupSR s.scanResults v = some r ∧ r.count = some c0 := by
        unfold countOf at hc0
        cases hlk : lookupSR s.scanResults v with
        | none => rw [hlk] at hc0; simp at hc0
        | some r => rw [hlk] at hc0; exact ⟨r, rfl, hc0⟩
      have h1 : countOf (updateScanResults s b t) v = some (c0 + 1) := by
        unfold countOf
        rw [← hb] at hr ⊢
        rw [updateScanResults_lookup_present s b t r hr]
        simp [hrc]
      have := ihpres (c0 + 1) h1
      rw [hstep, this]
      congr 1
      simp only [List.length_cons]
      omega

/-- Detection events used by concrete witnesses. -/
def wDetA : Barcode := { displayValue := "A", cornerPoints := none }

/-- Witness for C2: three detections of `"A"` from the initial state give
count 3 and leave the (absent) record of `"B"` untouched. -/
theorem count_after_repeated_detections_witness :
    countOf (applyDetections initialState [(wDetA, 0), (wDetA, 1), (wDetA, 2)]) "A" =
      some 3 ∧
    lookupSR (applyDetections initialState [(wDetA, 0), (wDetA, 1), (wDetA, 2)]).scanResults
        "B" = lookupSR initialState.scanResults "B" := by
  refine ⟨?_, ?_⟩
  · have h := (count_after_repeated_detections initialState "A"
      [(wDetA, 0), (wDetA, 1), (wDetA, 2)] (by decide)).2.1 (by decide) (by decide)
    simpa using h
  · exact (count_after_repeated_detections initialState "A"
      [(wDetA, 0), (wDetA, 1), (wDetA, 2)] (by decide)).1 "B" (by decide)

/-! ### Claim C4 -/

/-- Claim C4: applying `updateBarcodeSearchStatus` to a value whose record is
already terminal (`Matched`/`Rejected`) never changes the record's `count`,
`cornerPoints` or `timestamp`, and leaves every other record unchanged.  The
operation is a total function of the state (it cannot throw). -/
theorem recordVerification_terminal_frame (s : BarcodeScannerState) (v : String)
    (r : ScanRecord) (st2 : BarcodeSearchStatus)
    (hr : lookupSR s.scanResults v = some r)
    (_hterm : r.searchStatus = some BarcodeSearchStatus.matched ∨
              r.searchStatus = some BarcodeSearchStatus.rejected) :
    (∃ r2, lookupSR (updateBarcodeSearchStatus s v st2).scanResults v = some r2 ∧
      r2.count = r.count ∧ r2.cornerPoints = r.cornerPoints ∧
      r2.timestamp = r.timestamp) ∧
    (∀ w, w ≠ v →
      lookupSR (updateBarcodeSearchStatus s v st2).scanResults w =
        lookupSR s.scanResults w) := by
  refine ⟨⟨{ r with id := s.nextId, searchStatus := some st2 },
      updateBarcodeSearchStatus_lookup_present s v st2 r hr, rfl, rfl, rfl⟩, ?_⟩
  intro w hw
  exact updateBarcodeSearchStatus_lookup_ne s v st2 w hw

/-- A concrete state whose record for `"A"` is terminal (`Matched`). -/
def wTermState : BarcodeScannerState :=
  updateBarcodeSearchStatus (updateScanResults initialState wDetA 0) "A"
    BarcodeSearchStatus.matched

/-- The record tracked for `"A"` in `wTermState`. -/
def wTermRec : ScanRecord :=
  { id := 1, displayValue := some "A", cornerPoints := none, count := some 1,
    searchStatus := some BarcodeSearchStatus.matched, timestamp := some 0 }

/-- Witness for C4: re-verifying the already-`Matched` record of `"A"` keeps
its `count`, geometry and timestamp. -/
theorem recordVerification_terminal_frame_witness :
    ∃ r2, lookupSR (updateBarcodeSearchStatus wTermState "A"
        BarcodeSearchStatus.rejected).scanResults "A" = some r2 ∧
      r2.count = wTermRec.count ∧ r2.cornerPoints = wTermRec.cornerPoints ∧
      r2.timestamp = wTermRec.timestamp :=
  (recordVerification_terminal_frame wTermState "A" wTermRec
    BarcodeSearchStatus.rejected (by decide) (Or.inl (by decide))).1

/-! ### Claim C5 -/

/-- Claim C5 counterexample: applying `updateBarcodeSearchStatus` for a value
absent from the map is not a no-op: from the empty initial state it inserts a
degenerate record for `"X"` that holds only the `searchStatus` — in
particular a record with no `count` at all, violating the data-model
invariant `count ≥ 1`. -/
theorem recordVerification_absent_not_noop :
    (updateBarcodeSearchStatus initialState "X"
        BarcodeSearchStatus.matched).scanResults ≠ initialState.scanResults ∧
    lookupSR (updateBarcodeSearchStatus initialState "X"
        BarcodeSearchStatus.matched).scanResults "X" =
      some { id := 0, displayValue := none, cornerPoints := none, count := none,
             searchStatus := some BarcodeSearchStatus.matched, timestamp := none } := by
  decide

/-- Claim C5 as amended: for an absent value, `updateBarcodeSearchStatus`
inserts a degenerate record holding only the `searchStatus` (count, geometry
and timestamp all absent); every other record is unchanged, and the ranked
(threshold-filtered) view is unaffected, since the degenerate record never
meets the `count ≥ 3` filter.  The operation does not throw. -/
theorem recordVerification_absent_degenerate (s : BarcodeScannerState) (v : String)
    (st : BarcodeSearchStatus) (h : lookupSR s.scanResults v = none) :
    lookupSR (updateBarcodeSearchStatus s v st).scanResults v =
      some { id := s.nextId, displayValue := none, cornerPoints := none, count := none,
             searchStatus := some st, timestamp := none } ∧
    (∀ w, w ≠ v →
      lookupSR (updateBarcodeSearchStatus s v st).scanResults w =
        lookupSR s.scanResults w) ∧
    barcodesFilteredArray (updateBarcodeSearchStatus s v st) = barcodesFilteredArray s := by
  refine ⟨updateBarcodeSearchStatus_lookup_absent s v st h,
    fun w hw => updateBarcodeSearchStatus_lookup_ne s v st w hw, ?_⟩
  have hset : (updateBarcodeSearchStatus s v st).scanResults =
      s.scanResults ++
        [(v, { id := s.nextId, displayValue := none, cornerPoints := none, count := none,
               searchStatus := some st, timestamp := none })] := by
    unfold updateBarcodeSearchStatus
    rw [h]
    exact setSR_absent _ _ _ h
  unfold barcodesFilteredArray storeValues
  rw [hset]
  simp [countD, POSITIVE_SCAN_THRESHOLD]

/-- Witness for C5 (amended): from the initial state, a verification result
for the untracked `"X"` inserts the degenerate record and leaves the ranked
view empty, i.e. unchanged. -/
theorem recordVerification_absent_degenerate_witness :
    lookupSR (updateBarcodeSearchStatus initialState "X"
        BarcodeSearchStatus.rejected).scanResults "X" =
      some { id := 0, displayValue := none, cornerPoints := none, count := none,
             searchStatus := some BarcodeSearchStatus.rejected, timestamp := none } ∧
    barcodesFilteredArray (updateBarcodeSearchStatus initialState "X"
        BarcodeSearchStatus.rejected) = barcodesFilteredArray initialState := by
  refine ⟨?_, ?_⟩
  · exact (recordVerification_absent_degenerate initialState "X"
      BarcodeSearchStatus.rejected (by decide)).1
  · exact (recordVerification_absent_degenerate initialState "X"
      BarcodeSearchStatus.rejected (by decide)).2.2

/-! ### Claim C7 -/

/-- Claim C7: a detection of an already-tracked value replaces its record by
a copy with `count + 1`, the event's geometry, the fresh timestamp, and an
unchanged `searchStatus`. -/
theorem recordDetection_present_refresh (s : BarcodeScannerState) (b : Barcode)
    (now : Nat) (r : ScanRecord) (c : Nat) (g : List (Int × Int))
    (hr : lookupSR s.scanResults b.displayValue = some r)
    (hc : r.count = some c) (hg : b.cornerPoints = some g) :
    ∃ r2, lookupSR (updateScanResults s b now).scanResults b.displayValue = some r2 ∧
      r2.count = some (c + 1) ∧ r2.cornerPoints = some g ∧
      r2.timestamp = some now ∧ r2.searchStatus = r.searchStatus := by
  refine ⟨_, updateScanResults_lookup_present s b now r hr, ?_, ?_, rfl, rfl⟩
  · simp [hc]
  · simp [hg, spreadGeometry]

/-! ### Claim C8 -/

/-- A detection event of `"F"` carrying geometry, and the states it builds:
`wStaleCx2` tracks `"F"` with count 2 (last seen at 5), `wStaleCx3` with
count 3 (last seen at 6). -/
def wDetF : Barcode :=
  { displayValue := "F", cornerPoints := some [(0, 0), (10, 0), (10, 10), (0, 10)] }

/-- State with `"F"` at count 2, last seen at time 5. -/
def wStaleCx2 : BarcodeScannerState :=
  applyDetections initialState [(wDetF, 0), (wDetF, 5)]

/-- State with `"F"` at count 3, last seen at time 6. -/
def wStaleCx3 : BarcodeScannerState :=
  applyDetections initialState [(wDetF, 0), (wDetF, 5), (wDetF, 6)]

/-- Claim C8 counterexample.  The freshness filter is not an
if-and-only-if over all records: (a) at time 10, the record of `"F"` with
count 2 is perfectly fresh (`now - lastSeenAt = 5 < 1000`) yet `drawBoxes`
draws nothing, because the overlay iterates only over the threshold-filtered
ranked array; (b) with count 3 and `now - lastSeenAt` exactly 1000 the claim
requires exclusion (`now - lastSeenAt ≥ STALE_WINDOW`), yet the code's
strict `> 1000` comparison still draws the record. -/
theorem overlay_freshness_cx :
    countOf wStaleCx2 "F" = some 2 ∧
    ((lookupSR wStaleCx2.scanResults "F").bind ScanRecord.timestamp = some 5) ∧
    drawnRecords wStaleCx2 10 = [] ∧
    countOf wStaleCx3 "F" = some 3 ∧
    ((lookupSR wStaleCx3.scanResults "F").bind ScanRecord.timestamp = some 6) ∧
    (drawnRecords wStaleCx3 1006).length = 1 := by
  decide

/-- Claim C8 as amended: a record's geometry is part of the overlay iff the
record is in the store with `count ≥ POSITIVE_SCAN_THRESHOLD` (the overlay is
driven by the threshold-filtered ranked array), carries geometry, and is not
stale in the sense of the code's strict comparison
(`now - lastSeenAt > 1000`, i.e. it is drawn when `now - lastSeenAt ≤ 1000`).
Drawing never modifies the store. -/
theorem overlay_membership (s : BarcodeScannerState) (now : Nat) (r : ScanRecord) :
    (r ∈ drawnRecords s now ↔
      (r ∈ storeValues s ∧ POSITIVE_SCAN_THRESHOLD ≤ countD r ∧
       r.cornerPoints.isSome = true ∧ isStale r now = false)) ∧
    (drawBoxesStep s now).2 = s := by
  refine ⟨?_, rfl⟩
  unfold drawnRecords barcodesFilteredArray
  rw [List.mem_filter, mem_sortByCountDesc, List.mem_filter]
  simp only [Bool.and_eq_true, Bool.not_eq_true', decide_eq_true_eq]
  tauto

/-- Witness for C8 (amended): in `wStaleCx3` at time 1006, the tracked record
of `"F"` is drawn, and it indeed has count 3, geometry, and is not stale. -/
theorem overlay_membership_witness :
    ({ id := 2, displayValue := some "F",
       cornerPoints := some [(0, 0), (10, 0), (10, 10), (0, 10)],
       count := some 3, searchStatus := some BarcodeSearchStatus.scanned,
       timestamp := some 6 } : ScanRecord) ∈ drawnRecords wStaleCx3 1006 := by
  refine (overlay_membership wStaleCx3 1006 _).1.mpr ?_
  refine ⟨?_, by decide, by decide, by decide⟩
  decide

/-! ### Claim C6 -/

/-- Invariant of reachable states: every tracked record's status is either
still `Scanned` or the value's own deterministic verdict. -/
def StatusInv (s : BarcodeScannerState) : Prop :=
  ∀ v r, lookupSR s.scanResults v = some r →
    r.searchStatus = some BarcodeSearchStatus.scanned ∨
    r.searchStatus = some (verdict v)

theorem reachable_statusInv (s : BarcodeScannerState) (h : Reachable s) : StatusInv s := by
  induction h with
  | init => intro v r hr; simp [initialState, lookupSR] at hr
  | detect s0 b now _ ih =>
    intro v r hr
    by_cases hv : v = b.displayValue
    · subst hv
      cases hlk : lookupSR s0.scanResults b.displayValue with
      | some r0 =>
        rw [updateScanResults_lookup_present s0 b now r0 hlk] at hr
        obtain rfl : _ = r := Option.some.inj hr
        exact ih b.displayValue r0 hlk
      | none =>
        rw [updateScanResults_lookup_absent s0 b now hlk] at hr
        obtain rfl : _ = r := Option.some.inj hr
        exact Or.inl rfl
    · rw [updateScanResults_lookup_ne s0 b now v hv] at hr
      exact ih v r hr
  | complete s0 v0 r0 _ hlk ih =>
    intro v r hr
    by_cases hv : v = v0
    · subst hv
      rw [updateBarcodeSearchStatus_lookup_present s0 v (verdict v) r0 hlk] at hr
      obtain rfl : _ = r := Option.some.inj hr
      exact Or.inr rfl
    · rw [updateBarcodeSearchStatus_lookup_ne s0 v0 (verdict v0) v hv] at hr
      exact ih v r hr

/-- Claim C6: in every reachable state, a record's status is `Scanned` or its
value's verdict (so it has transitioned at most once, and only to `Matched`
or `Rejected`); a record is created with status `Scanned`; and a record whose
status is terminal keeps it under every further detection and under every
verification completion the session can produce. -/
theorem status_lifecycle (s : BarcodeScannerState) (h : Reachable s) :
    (∀ v r, lookupSR s.scanResults v = some r →
      r.searchStatus = some BarcodeSearchStatus.scanned ∨
      r.searchStatus = some (verdict v)) ∧
    (∀ (b : Barcode) (now : Nat), lookupSR s.scanResults b.displayValue = none →
      statusOf (updateScanResults s b now) b.displayValue =
        some BarcodeSearchStatus.scanned) ∧
    (∀ v r, lookupSR s.scanResults v = some r →
      (r.searchStatus = some BarcodeSearchStatus.matched ∨
       r.searchStatus = some BarcodeSearchStatus.rejected) →
      (∀ (b : Barcode) (now : Nat),
        statusOf (updateScanResults s b now) v = r.searchStatus) ∧
      (∀ w rw2, lookupSR s.scanResults w = some rw2 →
        statusOf (updateBarcodeSearchStatus s w (verdict w)) v = r.searchStatus)) := by
  refine ⟨reachable_statusInv s h, ?_, ?_⟩
  · intro b now hab
    unfold statusOf
    rw [updateScanResults_lookup_absent s b now hab]
    rfl
  · intro v r hr hterm
    constructor
    · intro b now
      by_cases hv : v = b.displayValue
      · subst hv
        unfold statusOf
        rw [updateScanResults_lookup_present s b now r hr]
        rfl
      · unfold statusOf
        rw [updateScanResults_lookup_ne s b now v hv, hr]
        rfl
    · intro w rw2 hw
      by_cases hv : v = w
      · subst hv
        obtain rfl : r = rw2 := Option.some.inj (hr.symm.trans hw)
        unfold statusOf
        rw [updateBarcodeSearchStatus_lookup_present s v (verdict v) r hr]
        have hverd : r.searchStatus = some (verdict v) := by
          rcases reachable_statusInv s h v r hr with hsc | hvd
          · rcases hterm with ht | ht <;> rw [hsc] at ht <;> exact absurd ht (by simp)
          · exact hvd
        simp [hverd]
      · unfold statusOf
        rw [updateBarcodeSearchStatus_lookup_ne s w (verdict w) v hv, hr]
        rfl

/-- A reachable state in which `"A"` has been detected once and its (early)
verification has completed with verdict `Rejected`. -/
def wReachState : BarcodeScannerState :=
  updateBarcodeSearchStatus (updateScanResults initialState wDetA 0) "A" (verdict "A")

/-- The record tracked for `"A"` in `wReachState`. -/
def wReachRec : ScanRecord :=
  { id := 1, displayValue := some "A", cornerPoints := none, count := some 1,
    searchStatus := some BarcodeSearchStatus.rejected, timestamp := some 0 }

/-- Witness for C6: in the concrete reachable state `wReachState`, the
terminal (`Rejected`) record of `"A"` keeps its status under a further
detection of `"A"` and under a further verification completion for `"A"`. -/
theorem status_lifecycle_witness :
    statusOf (updateScanResults wReachState wDetA 9) "A" =
      some BarcodeSearchStatus.rejected ∧
    statusOf (updateBarcodeSearchStatus wReachState "A" (verdict "A")) "A" =
      some BarcodeSearchStatus.rejected := by
  have hreach : Reachable wReachState := by
    unfold wReachState
    exact Reachable.complete _ "A"
      { id := 0, displayValue := some "A", cornerPoints := none, count := some 1,
        searchStatus := some BarcodeSearchStatus.scanned, timestamp := some 0 }
      (Reachable.detect _ wDetA 0 Reachable.init) (by decide)
  have hmain := (status_lifecycle wReachState hreach).2.2 "A" wReachRec
    (by decide) (Or.inr (by decide))
  exact ⟨hmain.1 wDetA 9, hmain.2 "A" wReachRec (by decide)⟩

/-! ### Claim C9 -/

/-- Claim C9: on verification completion, with the stop-after-match policy
enabled by default (`KEEP_SCANNING_AFTER_MATCH = false`), a `matched = true`
result signals the session stop and sets the record's status to `Matched`; a
`matched = false` result does not stop the session and sets the status to
`Rejected`. -/
theorem verification_completion_policy (s : BarcodeScannerState) (v : String) :
    (handleVerificationResult s v true).1 = true ∧
    (handleVerificationResult s v false).1 = false ∧
    statusOf (handleVerificationResult s v true).2 v =
      some BarcodeSearchStatus.matched ∧
    statusOf (handleVerificationResult s v false).2 v =
      some BarcodeSearchStatus.rejected := by
  refine ⟨rfl, rfl, ?_, ?_⟩ <;>
    exact statusOf_updateBarcodeSearchStatus_self s v _

/-! ### Claim C10 -/

/-- Claim C10: the verification outcome computed by `searchNewBarcodes` is a
pure function of the barcode value (the randomized delay only postpones its
delivery): it is `true` exactly when the value starts with `"S"` or with
`"CAT"`, and any two dispatches for barcodes with the same value produce the
same outcome. -/
theorem verification_outcome_value_determined (b : Barcode) :
    (verificationOutcome b = true ↔
      ("S".data <+: b.displayValue.data ∨ "CAT".data <+: b.displayValue.data)) ∧
    (∀ b2 : Barcode, b2.displayValue = b.displayValue →
      verificationOutcome b2 = verificationOutcome b) := by
  constructor
  · simp [verificationOutcome, isMatch, strStarts]
  · intro b2 h
    simp [verificationOutcome, isMatch, strStarts, h]

/-- Witness for C10: a barcode `"S1"` with geometry verifies like a barcode
`"S1"` without, and the outcome is `true` as `"S1"` starts with `"S"`. -/
theorem verification_outcome_value_determined_witness :
    verificationOutcome { displayValue := "S1", cornerPoints := some [(0, 0)] } =
      verificationOutcome { displayValue := "S1", cornerPoints := none } ∧
    (verificationOutcome { displayValue := "S1", cornerPoints := none } = true ↔
      ("S".data <+: "S1".data ∨ "CAT".data <+: "S1".data)) :=
  ⟨(verification_outcome_value_determined
      { displayValue := "S1", cornerPoints := none }).2
      { displayValue := "S1", cornerPoints := some [(0, 0)] } rfl,
   (verification_outcome_value_determined
      { displayValue := "S1", cornerPoints := none }).1⟩

/-- A detection event of `"A"` carrying geometry. -/
def wDetAg : Barcode :=
  { displayValue := "A", cornerPoints := some [(8, 8), (9, 8), (9, 9), (8, 9)] }

/-- Witness for C7: a second detection of `"A"` with fresh geometry bumps the
count from 1 to 2, installs the new geometry and timestamp, and keeps the
`Scanned` status. -/
theorem recordDetection_present_refresh_witness :
    ∃ r2, lookupSR (updateScanResults (updateScanResults initialState wDetA 0)
        wDetAg 7).scanResults "A" = some r2 ∧
      r2.count = some 2 ∧ r2.cornerPoints = some [(8, 8), (9, 8), (9, 9), (8, 9)] ∧
      r2.timestamp = some 7 ∧
      r2.searchStatus = some BarcodeSearchStatus.scanned :=
  recordDetection_present_refresh (updateScanResults initialState wDetA 0) wDetAg 7
    { id := 0, displayValue := some "A", cornerPoints := none, count := some 1,
      searchStatus := some BarcodeSearchStatus.scanned, timestamp := some 0 }
    1 [(8, 8), (9, 8), (9, 9), (8, 9)] (by decide) rfl rfl

end BarcodeScanning
